import Mathlib

/-!
Verification development for the `l` logging façade (Go package `l`).

The package configures a process-wide logger built on a structured-logging
engine (zap) and a rotating-file sink (lumberjack).  This file gives a
shallow embedding of the package's pure decision logic (field encoders,
level resolution, sink resolution, buffering) and a small-step interleaving
model of the lazy-initialization guard `ensureInitialized` racing with
`Setup`, and proves the specified properties about them.
-/

namespace L

/-! ## Severity levels (`zapcore.Level`)

The zap level universe used by the façade: the six levels the custom level
encoder names explicitly, plus `dpanic`, the remaining named zap level,
which falls through to the encoder's default branch. -/

inductive Level where
  | debug
  | info
  | warn
  | error
  | dpanic
  | panic
  | fatal
deriving DecidableEq

/-- `zapcore.Level.CapitalString`: the upper-case name of a named level
(the external engine's default capital rendering). -/
def Level.CapitalString : Level → String
  | .debug => "DEBUG"
  | .info => "INFO"
  | .warn => "WARN"
  | .error => "ERROR"
  | .dpanic => "DPANIC"
  | .panic => "PANIC"
  | .fatal => "FATAL"

/-! ## Custom level encoder (`customLevelEncoder.EncodeLevel`, part_000 lines 35-52)

A `switch` on the level: six explicit single-letter cases, and a default
branch appending `l.CapitalString()`. -/

def EncodeLevel : Level → String
  | .debug => "D"
  | .info => "I"
  | .warn => "W"
  | .error => "E"
  | .fatal => "F"
  | .panic => "P"
  | l => l.CapitalString

/-! ## Custom caller encoder (`customCallerEncoder.EncodeCaller`, part_000 lines 59-66)

Go code: `idx := strings.Index(callerPath, "/"); if idx != -1 { callerPath
= callerPath[idx+1:] }`.  `strings.Index` returns `-1` exactly when `'/'`
does not occur in the string; when it occurs, slicing from `idx+1` keeps
what follows the first occurrence.  `afterFirstSlash` is that slice. -/

def afterFirstSlash : List Char → List Char
  | [] => []
  | c :: cs => if c = '/' then cs else afterFirstSlash cs

def EncodeCaller (callerPath : String) : String :=
  if '/' ∈ callerPath.data then String.mk (afterFirstSlash callerPath.data)
  else callerPath

/-! ## Custom time encoder (`customTimeEncoder.EncodeTime`, part_000 lines 26-28)

Go code: `enc.AppendString(t.Format("20060102 15:04:05.000"))`.  The Go
reference layout `"20060102 15:04:05.000"` renders the wall-clock fields as
zero-padded decimal: 4-digit year, 2-digit month, day, hour (24h), minute,
second, then `.` and 3-digit milliseconds; no timezone marker.  We model a
wall-clock instant by its fields and the layout by explicit zero-padded
digit rendering. -/

structure DateTime where
  year : Nat
  month : Nat
  day : Nat
  hour : Nat
  minute : Nat
  second : Nat
  millis : Nat
deriving DecidableEq

/-- Field ranges under which the fixed-width zero-padded rendering is
faithful to Go's layout (real wall-clock values are well inside them). -/
def ValidTime (t : DateTime) : Prop :=
  t.year < 10000 ∧ t.month < 100 ∧ t.day < 100 ∧ t.hour < 100 ∧
    t.minute < 100 ∧ t.second < 100 ∧ t.millis < 1000

instance (t : DateTime) : Decidable (ValidTime t) := by
  unfold ValidTime; infer_instance

def digitChar (n : Nat) : Char := Char.ofNat (48 + n)

def pad2 (n : Nat) : List Char := [digitChar (n / 10), digitChar (n % 10)]

def pad3 (n : Nat) : List Char :=
  [digitChar (n / 100), digitChar (n / 10 % 10), digitChar (n % 10)]

def pad4 (n : Nat) : List Char :=
  [digitChar (n / 1000), digitChar (n / 100 % 10), digitChar (n / 10 % 10),
    digitChar (n % 10)]

def EncodeTime (t : DateTime) : String :=
  String.mk (pad4 t.year ++ pad2 t.month ++ pad2 t.day ++ [' '] ++
    pad2 t.hour ++ [':'] ++ pad2 t.minute ++ [':'] ++ pad2 t.second ++
    ['.'] ++ pad3 t.millis)

/-! ## Configuration capability (`Config`, src/config.go)

Read-only capability: `Level() string`, `Path() string`, `Console() bool`,
`Async() bool`.  A nil interface value is modelled by `Option Config`. -/

structure Config where
  level : String
  path : String
  console : Bool
  async : Bool
deriving DecidableEq

/-! ## Encoder configuration (`zap.NewDevelopmentEncoderConfig` plus the
overrides on part_000 lines 70-75 and 174-179)

Each encoder slot is modelled by a tag naming which encoding function is
installed: `customTime` denotes `EncodeTime` above, `customLevel` denotes
`EncodeLevel`, `customCaller` denotes `EncodeCaller`, `seconds` denotes
`zapcore.SecondsDurationEncoder`; the remaining tags are the development
defaults (`ISO8601TimeEncoder`, `CapitalLevelEncoder`,
`StringDurationEncoder`, `ShortCallerEncoder`). -/

inductive TimeEncTag where
  | iso8601
  | customTime
deriving DecidableEq

inductive LevelEncTag where
  | capital
  | customLevel
deriving DecidableEq

inductive DurEncTag where
  | stringDur
  | seconds
deriving DecidableEq

inductive CallerEncTag where
  | short
  | customCaller
deriving DecidableEq

structure EncoderConfig where
  encTime : TimeEncTag
  encLevel : LevelEncTag
  encDuration : DurEncTag
  encCaller : CallerEncTag
  consoleSeparator : String
deriving DecidableEq

/-- `zap.NewDevelopmentEncoderConfig()`: development defaults for the slots
the façade touches (the separator is left unset, i.e. empty). -/
def NewDevelopmentEncoderConfig : EncoderConfig :=
  { encTime := .iso8601
    encLevel := .capital
    encDuration := .stringDur
    encCaller := .short
    consoleSeparator := "" }

/-! ## Output sinks (`zapcore.WriteSyncer` values built by `Setup` and
`ensureInitialized`)

`stdout` is `zapcore.AddSync(os.Stdout)`; `file p` is a `lumberjack.Logger`
with parameters `p` wrapped by `zapcore.AddSync`; `multi ws` is
`zapcore.NewMultiWriteSyncer(ws...)`; `buffered w size` is
`zapcore.BufferedWriteSyncer\x7bWS: w, Size: size\x7d`. -/

structure FileSinkParams where
  filename : String
  maxSize : Nat
  maxBackups : Nat
  maxAge : Nat
  compress : Bool
deriving DecidableEq

inductive Writer where
  | stdout
  | file (p : FileSinkParams)
  | multi (ws : List Writer)
  | buffered (w : Writer) (size : Nat)

/-- An output destination: the observable endpoint a write reaches after
unwrapping multi-writer fan-out and buffering. -/
inductive Dest where
  | stdout
  | file (p : FileSinkParams)
deriving DecidableEq

/-- The destinations a writer fans out to, in order. -/
def Writer.destinations : Writer → List Dest
  | .stdout => [.stdout]
  | .file p => [.file p]
  | .buffered w _ => w.destinations
  | .multi [] => []
  | .multi (w :: ws) => w.destinations ++ (Writer.multi ws).destinations

def Writer.isBuffered : Writer → Bool
  | .buffered _ _ => true
  | _ => false

/-! ## Setup (part_000 lines 68-143) -/

/-- `strings.ToLower` as used on the configured level string: lower-case
every character (the strings compared against are ASCII, where Go's
Unicode lowering and per-character ASCII lowering agree). -/
def lowerStr (s : String) : String := String.mk (s.data.map Char.toLower)

/-- Severity-threshold resolution, part_000 lines 77-94: start from the
debug default; when a configuration is present with a non-empty level
string, switch on its lower-cased form; the switch default leaves the
debug value in place. -/
def resolveLevel (config : Option Config) : Level :=
  let level := Level.debug
  match config with
  | none => level
  | some c =>
    if c.level ≠ "" then
      let s := lowerStr c.level
      if s = "debug" then Level.debug
      else if s = "info" then Level.info
      else if s = "warn" then Level.warn
      else if s = "warning" then Level.warn
      else if s = "error" then Level.error
      else if s = "fatal" then Level.fatal
      else if s = "panic" then Level.panic
      else level
    else level

/-- Sink resolution, part_000 lines 96-120: with a configuration, a
lumberjack rotating file (10 MB, 30 backups, 7 days, compressed), optionally
fanned out with stdout when `Console()`; with none, a multi-writer over
stdout alone. -/
def resolveWriter (config : Option Config) : Writer :=
  match config with
  | some c =>
    let hook : FileSinkParams :=
      { filename := c.path
        maxSize := 10
        maxBackups := 30
        maxAge := 7
        compress := true }
    if c.console then Writer.multi [Writer.stdout, Writer.file hook]
    else Writer.file hook
  | none => Writer.multi [Writer.stdout]

/-- Buffering resolution, part_000 lines 122-127: wrap in a 4096-byte
buffered write-syncer exactly when a configuration is present and requests
asynchronous writing. -/
def resolveBuffer (config : Option Config) (writer : Writer) : Writer :=
  match config with
  | some c => if c.async then Writer.buffered writer 4096 else writer
  | none => writer

/-- The logger value `zap.New(core, zap.AddCaller(), zap.AddCallerSkip(1))`
installs: its encoder configuration, the write-syncer, the enabled
threshold, and the caller-attribution options. -/
structure LoggerSpec where
  enc : EncoderConfig
  writer : Writer
  level : Level
  addCaller : Bool
  callerSkip : Nat

/-- Error results of `Setup`/`Unsetup` (Go `error`, nil = `none`). -/
def Err := String

/-- `Setup`, part_000 lines 68-143: build the encoder configuration
(development defaults with the custom time/level/duration/caller encoders
and a single-space console separator), resolve threshold, sinks and
buffering, assemble the logger, and return a nil error.  The global install
under `initMu.Lock()` is modelled in the transition system below. -/
def Setup (config : Option Config) : LoggerSpec × Option Err :=
  let encoderConfig := NewDevelopmentEncoderConfig
  let encoderConfig := { encoderConfig with encTime := .customTime }
  let encoderConfig := { encoderConfig with encLevel := .customLevel }
  let encoderConfig := { encoderConfig with encDuration := .seconds }
  let encoderConfig := { encoderConfig with encCaller := .customCaller }
  let encoderConfig := { encoderConfig with consoleSeparator := " " }
  let level := resolveLevel config
  let writer := resolveWriter config
  let writer := resolveBuffer config writer
  ({ enc := encoderConfig
     writer := writer
     level := level
     addCaller := true
     callerSkip := 1 }, none)

/-- `Unsetup`, part_000 lines 145-147: returns nil unconditionally. -/
def Unsetup : Option Err := none

/-- The default logger constructed inside `ensureInitialized`'s one-time
body, part_000 lines 174-188: same encoder-configuration block as `Setup`,
a bare `zapcore.AddSync(os.Stdout)` sink, debug threshold, caller
attribution skipping one frame. -/
def defaultLoggerSpec : LoggerSpec :=
  let encoderConfig := NewDevelopmentEncoderConfig
  let encoderConfig := { encoderConfig with encTime := .customTime }
  let encoderConfig := { encoderConfig with encLevel := .customLevel }
  let encoderConfig := { encoderConfig with encDuration := .seconds }
  let encoderConfig := { encoderConfig with encCaller := .customCaller }
  let encoderConfig := { encoderConfig with consoleSeparator := " " }
  { enc := encoderConfig
    writer := Writer.stdout
    level := Level.debug
    addCaller := true
    callerSkip := 1 }

/-- Observational equivalence of two logger values: same encoder chain,
same output destinations, same threshold, same caller attribution. -/
def LoggerEquiv (a b : LoggerSpec) : Prop :=
  a.enc = b.enc ∧ a.writer.destinations = b.writer.destinations ∧
    a.level = b.level ∧ a.addCaller = b.addCaller ∧
    a.callerSkip = b.callerSkip

/-! ## Interleaving model of `ensureInitialized` and `Setup`
(part_000 lines 137-140 and 153-190)

Shared state: the global handle `sugar`/`logger` (one `Option LoggerSpec`,
nil iff both globals are nil — they are always written together under
`initMu`), the `sync.Once` latch `initOnce`, and an auxiliary counter for
how many times the default-construction body ran.  Every access the code
makes to the shared handle is under `initMu` (read lock on the fast path,
write lock in the once body and in `Setup`), and the once body runs under
the `sync.Once` latch as well, so each lock-protected section is one atomic
step of the model:

* `fastHit`/`fastMiss`: the read-locked fast-path check (lines 155-160);
* `onceLatchHeld`: `initOnce.Do` finds the latch already used and returns
  without running the body (line 163);
* `onceRecheckSkip`: the body runs, takes the write lock, re-checks and
  finds the handle non-nil, and returns without constructing (lines
  165-171);
* `onceDefaultInit`: the body runs, the re-check finds nil, and the
  default logger is constructed and installed (lines 173-188);
* `setupInstall`: `Setup cfg` takes the write lock and installs its logger
  (lines 137-140).  Its pure construction before the lock is `Setup` above.
-/

/-- Program counter of a thread executing one `ensureInitialized` call:
before the fast-path check, past it and about to enter `initOnce.Do`, or
returned. -/
inductive EnsurePC where
  | start
  | slow
  | done
deriving DecidableEq

/-- Whether an explicit `Setup` call exists in the system, and whether its
installing store has executed yet. -/
inductive SetupCall where
  | noCall
  | pending (cfg : Option Config)
  | finished (cfg : Option Config)

structure Sys where
  threads : List EnsurePC
  setup : SetupCall
  sugar : Option LoggerSpec
  once : Bool
  count : Nat

/-- One interleaved step of the system. -/
inductive Step : Sys → Sys → Prop
  | fastHit (s : Sys) (i : Nat)
      (hpc : s.threads.get? i = some EnsurePC.start)
      (hs : s.sugar ≠ none) :
      Step s { s with threads := s.threads.set i EnsurePC.done }
  | fastMiss (s : Sys) (i : Nat)
      (hpc : s.threads.get? i = some EnsurePC.start)
      (hs : s.sugar = none) :
      Step s { s with threads := s.threads.set i EnsurePC.slow }
  | onceLatchHeld (s : Sys) (i : Nat)
      (hpc : s.threads.get? i = some EnsurePC.slow)
      (ho : s.once = true) :
      Step s { s with threads := s.threads.set i EnsurePC.done }
  | onceRecheckSkip (s : Sys) (i : Nat) (v : LoggerSpec)
      (hpc : s.threads.get? i = some EnsurePC.slow)
      (ho : s.once = false)
      (hs : s.sugar = some v) :
      Step s { s with threads := s.threads.set i EnsurePC.done, once := true }
  | onceDefaultInit (s : Sys) (i : Nat)
      (hpc : s.threads.get? i = some EnsurePC.slow)
      (ho : s.once = false)
      (hs : s.sugar = none) :
      Step s { s with threads := s.threads.set i EnsurePC.done
                      once := true
                      sugar := some defaultLoggerSpec
                      count := s.count + 1 }
  | setupInstall (s : Sys) (cfg : Option Config)
      (hp : s.setup = SetupCall.pending cfg) :
      Step s { s with setup := SetupCall.finished cfg
                      sugar := some (Setup cfg).1 }

def Reachable : Sys → Sys → Prop := Relation.ReflTransGen Step

/-- Initial state: `n` threads each about to make its first logging call
(each leveled logging function begins with `ensureInitialized`), the given
explicit-`Setup` situation, nil globals, unused latch, untouched counter. -/
def initSys (n : Nat) (sc : SetupCall) : Sys :=
  { threads := List.replicate n EnsurePC.start
    setup := sc
    sugar := none
    once := false
    count := 0 }

/-- Invariant of the system with no explicit `Setup` call: the thread pool
keeps its size, the latch/handle/counter move together (`initOnce` unused
means untouched globals; used means the default logger was installed by a
single body run), and a returned `ensureInitialized` call implies the latch
was used. -/
def InvNC (n : Nat) (s : Sys) : Prop :=
  s.threads.length = n ∧
  s.setup = SetupCall.noCall ∧
  (s.once = false → s.sugar = none ∧ s.count = 0) ∧
  (s.once = true → s.sugar = some defaultLoggerSpec ∧ s.count = 1) ∧
  (∀ i, s.threads.get? i = some EnsurePC.done → s.once = true)

/-- Invariant of the system with one explicit `Setup cfg` call: either that
call has not installed yet, or it has and the global handle holds exactly
the logger it built. -/
def InvS (cfg : Option Config) (s : Sys) : Prop :=
  s.setup = SetupCall.pending cfg ∨
    (s.setup = SetupCall.finished cfg ∧ s.sugar = some (Setup cfg).1)

/-! ## Helper lemmas -/

theorem afterFirstSlash_append (a b : List Char) (h : '/' ∉ a) :
    afterFirstSlash (a ++ '/' :: b) = b := by
  induction a with
  | nil => simp [afterFirstSlash]
  | cons c cs ih =>
    have hc : c ≠ '/' := by
      intro hc; exact h (hc ▸ List.mem_cons_self c cs)
    have hcs : '/' ∉ cs := fun hm => h (List.mem_cons_of_mem c hm)
    simp [afterFirstSlash, hc, ih hcs]

theorem lt_length_of_get?_eq_some {α : Type} {l : List α} {i : Nat} {a : α}
    (h : l.get? i = some a) : i < l.length := by
  rw [List.get?_eq_getElem?] at h
  exact (List.getElem?_eq_some.mp h).1

theorem get?_replicate_eq {α : Type} (n i : Nat) (a : α) :
    (List.replicate n a).get? i = if i < n then some a else none := by
  rw [List.get?_eq_getElem?]
  by_cases h : i < n
  · simp [List.getElem?_replicate_of_lt h, h]
  · simp only [h, if_false]
    exact List.getElem?_eq_none (by simpa using Nat.le_of_not_lt h)

/-! ## Claim theorems -/

/-- C4: the caller encoder drops everything up to and including the first
`/` of the trimmed caller path and passes a separator-free path through
unchanged; in particular `"pkgname/sub/file.go:42"` becomes
`"sub/file.go:42"`. -/
theorem caller_encoder_strips_top_segment :
    (∀ s : String, '/' ∉ s.data → EncodeCaller s = s) ∧
    (∀ a b : String, '/' ∉ a.data → EncodeCaller (a ++ "/" ++ b) = b) ∧
    EncodeCaller "pkgname/sub/file.go:42" = "sub/file.go:42" := by
  refine ⟨?_, ?_, by decide⟩
  · intro s h
    simp [EncodeCaller, h]
  · intro a b h
    have hd : (a ++ "/" ++ b).data = a.data ++ '/' :: b.data := by
      show (a.data ++ "/".data) ++ b.data = _
      simp
    have hmem : '/' ∈ (a ++ "/" ++ b).data := by
      rw [hd]; exact List.mem_append_right _ (List.mem_cons_self _ _)
    rw [EncodeCaller, if_pos hmem, hd, afterFirstSlash_append a.data b.data h]

/-- C4 witness: stripping at a concrete split point. -/
theorem caller_encoder_strips_top_segment_w :
    EncodeCaller ("pkg" ++ "/" ++ "file.go:42") = "file.go:42" :=
  caller_encoder_strips_top_segment.2.1 "pkg" "file.go:42" (by decide)

/-- C5: the level encoder maps the six handled severities to their
single-letter codes and every other severity to the engine's upper-case
name; it is a total function. -/
theorem level_encoder_letters :
    EncodeLevel Level.debug = "D" ∧ EncodeLevel Level.info = "I" ∧
    EncodeLevel Level.warn = "W" ∧ EncodeLevel Level.error = "E" ∧
    EncodeLevel Level.fatal = "F" ∧ EncodeLevel Level.panic = "P" ∧
    ∀ l : Level, l ≠ Level.debug → l ≠ Level.info → l ≠ Level.warn →
      l ≠ Level.error → l ≠ Level.fatal → l ≠ Level.panic →
      EncodeLevel l = l.CapitalString := by
  refine ⟨rfl, rfl, rfl, rfl, rfl, rfl, ?_⟩
  intro l h1 h2 h3 h4 h5 h6
  cases l <;> simp_all [EncodeLevel]

/-- C5 witness: the one remaining named level falls through to the
upper-case fallback. -/
theorem level_encoder_letters_w :
    EncodeLevel Level.dpanic = Level.CapitalString Level.dpanic :=
  level_encoder_letters.2.2.2.2.2.2 Level.dpanic (by decide) (by decide)
    (by decide) (by decide) (by decide) (by decide)

/-- C9: `Setup` reports success for every configuration (including none),
and `Unsetup` reports success; neither has a failure path. -/
theorem setup_unsetup_never_fail :
    (∀ config : Option Config, (Setup config).2 = none) ∧ Unsetup = none :=
  ⟨fun _ => rfl, rfl⟩

/-- C3: threshold resolution defaults to debug, maps the seven recognized
lower-cased level strings (with `warning` aliasing `warn`) to their
severities case-insensitively, and silently keeps debug for anything
unrecognized. -/
theorem setup_level_resolution :
    resolveLevel none = Level.debug ∧
    (∀ c : Config, c.level = "" → resolveLevel (some c) = Level.debug) ∧
    (∀ c : Config, lowerStr c.level = "debug" →
      resolveLevel (some c) = Level.debug) ∧
    (∀ c : Config, lowerStr c.level = "info" →
      resolveLevel (some c) = Level.info) ∧
    (∀ c : Config, lowerStr c.level = "warn" ∨ lowerStr c.level = "warning" →
      resolveLevel (some c) = Level.warn) ∧
    (∀ c : Config, lowerStr c.level = "error" →
      resolveLevel (some c) = Level.error) ∧
    (∀ c : Config, lowerStr c.level = "fatal" →
      resolveLevel (some c) = Level.fatal) ∧
    (∀ c : Config, lowerStr c.level = "panic" →
      resolveLevel (some c) = Level.panic) ∧
    (∀ c : Config,
      lowerStr c.level ≠ "debug" → lowerStr c.level ≠ "info" →
      lowerStr c.level ≠ "warn" → lowerStr c.level ≠ "warning" →
      lowerStr c.level ≠ "error" → lowerStr c.level ≠ "fatal" →
      lowerStr c.level ≠ "panic" →
      resolveLevel (some c) = Level.debug) := by
  have hempty : ∀ c : Config, c.level = "" → lowerStr c.level = "" := by
    intro c h; rw [h]; decide
  refine ⟨rfl, ?_, ?_, ?_, ?_, ?_, ?_, ?_, ?_⟩
  · intro c h
    simp [resolveLevel, h]
  · intro c h
    by_cases he : c.level = "" <;> simp [resolveLevel, he, h]
  · intro c h
    by_cases he : c.level = ""
    · rw [hempty c he] at h; exact absurd h (by decide)
    · simp [resolveLevel, he, h]
  · intro c h
    by_cases he : c.level = ""
    · rcases h with h | h <;> (rw [hempty c he] at h; exact absurd h (by decide))
    · rcases h with h | h <;> simp [resolveLevel, he, h]
  · intro c h
    by_cases he : c.level = ""
    · rw [hempty c he] at h; exact absurd h (by decide)
    · simp [resolveLevel, he, h]
  · intro c h
    by_cases he : c.level = ""
    · rw [hempty c he] at h; exact absurd h (by decide)
    · simp [resolveLevel, he, h]
  · intro c h
    by_cases he : c.level = ""
    · rw [hempty c he] at h; exact absurd h (by decide)
    · simp [resolveLevel, he, h]
  · intro c h1 h2 h3 h4 h5 h6 h7
    by_cases he : c.level = "" <;>
      simp [resolveLevel, he, h1, h2, h3, h4, h5, h6, h7]

/-- C3 witness: an upper-case alias maps case-insensitively to warn. -/
theorem setup_level_resolution_w :
    resolveLevel (some ⟨"WARNING", "app.log", false, false⟩) = Level.warn :=
  setup_level_resolution.2.2.2.2.1 ⟨"WARNING", "app.log", false, false⟩
    (Or.inr (by decide))

/-- C7: sink resolution gives console only without a configuration; with
one, a rotating file capped at 10 MB, 30 backups, 7 days, compressed, fanned
out with the console exactly when `Console()` is set. -/
theorem setup_sink_resolution :
    resolveWriter none = Writer.multi [Writer.stdout] ∧
    (resolveWriter none).destinations = [Dest.stdout] ∧
    (∀ c : Config, c.console = true →
      resolveWriter (some c) =
        Writer.multi [Writer.stdout, Writer.file ⟨c.path, 10, 30, 7, true⟩]) ∧
    (∀ c : Config, c.console = true →
      (resolveWriter (some c)).destinations =
        [Dest.stdout, Dest.file ⟨c.path, 10, 30, 7, true⟩]) ∧
    (∀ c : Config, c.console = false →
      resolveWriter (some c) = Writer.file ⟨c.path, 10, 30, 7, true⟩) := by
  refine ⟨rfl, by simp [resolveWriter, Writer.destinations], ?_, ?_, ?_⟩
  · intro c h; simp [resolveWriter, h]
  · intro c h; simp [resolveWriter, h, Writer.destinations]
  · intro c h; simp [resolveWriter, h]

/-- C7 witness: fan-out at a concrete console-mirroring configuration. -/
theorem setup_sink_resolution_w :
    resolveWriter (some ⟨"info", "app.log", true, false⟩) =
      Writer.multi [Writer.stdout, Writer.file ⟨"app.log", 10, 30, 7, true⟩] :=
  setup_sink_resolution.2.2.1 ⟨"info", "app.log", true, false⟩ rfl

/-- C8: the writer `Setup` installs is wrapped in a 4096-byte buffer exactly
when a configuration is present with `Async()` set; otherwise the resolved
sink is used unbuffered. -/
theorem setup_buffering_iff_async :
    (∀ config : Option Config,
      (Setup config).1.writer.isBuffered = true ↔
        ∃ c, config = some c ∧ c.async = true) ∧
    (∀ c : Config, c.async = true →
      (Setup (some c)).1.writer =
        Writer.buffered (resolveWriter (some c)) 4096) ∧
    (∀ c : Config, c.async = false →
      (Setup (some c)).1.writer = resolveWriter (some c)) ∧
    (Setup none).1.writer = resolveWriter none := by
  refine ⟨?_, ?_, ?_, rfl⟩
  · intro config
    cases config with
    | none =>
      simp [Setup, resolveBuffer, resolveWriter, Writer.isBuffered]
    | some c =>
      cases hA : c.async with
      | true =>
        simp only [Setup, resolveBuffer, hA, if_true, Writer.isBuffered,
          true_iff]
        exact ⟨c, rfl, hA⟩
      | false =>
        cases hC : c.console <;>
          simp [Setup, resolveBuffer, resolveWriter, hA, hC, Writer.isBuffered]
  · intro c h; simp [Setup, resolveBuffer, h]
  · intro c h; simp [Setup, resolveBuffer, h]

/-- C8 witness: a concrete asynchronous configuration gets the 4096-byte
buffer. -/
theorem setup_buffering_iff_async_w :
    (Setup (some ⟨"", "app.log", false, true⟩)).1.writer =
      Writer.buffered (resolveWriter (some ⟨"", "app.log", false, true⟩)) 4096 :=
  setup_buffering_iff_async.2.1 ⟨"", "app.log", false, true⟩ rfl

/-- C10: the logger `Setup` builds for a nil configuration is
observationally equivalent to the lazy default logger: same encoder chain
(custom time, level, caller encoders, seconds duration encoder, one-space
separator), console-only stdout destinations, debug threshold, caller
attribution skipping one frame. -/
theorem setup_nil_equiv_lazy_default :
    LoggerEquiv (Setup none).1 defaultLoggerSpec ∧
    (Setup none).1.level = Level.debug ∧
    (Setup none).1.writer.destinations = [Dest.stdout] ∧
    defaultLoggerSpec.writer.destinations = [Dest.stdout] ∧
    (Setup none).1.enc.encTime = TimeEncTag.customTime ∧
    (Setup none).1.enc.encLevel = LevelEncTag.customLevel ∧
    (Setup none).1.enc.encCaller = CallerEncTag.customCaller ∧
    (Setup none).1.enc.encDuration = DurEncTag.seconds ∧
    (Setup none).1.enc.consoleSeparator = " " ∧
    (Setup none).1.callerSkip = 1 ∧ (Setup none).1.addCaller = true := by
  refine ⟨⟨rfl, ?_, rfl, rfl, rfl⟩, rfl, ?_, ?_, rfl, rfl, rfl, rfl, rfl,
    rfl, rfl⟩ <;>
    simp [Setup, defaultLoggerSpec, resolveWriter, resolveBuffer,
      Writer.destinations]

theorem digitChar_isDigit : ∀ n : Nat, n < 10 → (digitChar n).isDigit = true := by
  decide

theorem digitChar_inj :
    ∀ a : Nat, a < 10 → ∀ b : Nat, b < 10 → digitChar a = digitChar b → a = b := by
  decide

/-- C6: the time encoder renders every valid wall-clock instant with the
fixed 21-character layout `YYYYMMDD HH:MM:SS.mmm` — separators at fixed
positions, every other character a decimal digit, no timezone marker, and
distinct instants render distinctly; the instant 2024-03-05T07:08:09.123
renders as `20240305 07:08:09.123`. -/
theorem time_encoder_pattern :
    EncodeTime ⟨2024, 3, 5, 7, 8, 9, 123⟩ = "20240305 07:08:09.123" ∧
    (∀ t : DateTime, ValidTime t →
      (EncodeTime t).length = 21 ∧
      (EncodeTime t).data.get? 8 = some ' ' ∧
      (EncodeTime t).data.get? 11 = some ':' ∧
      (EncodeTime t).data.get? 14 = some ':' ∧
      (EncodeTime t).data.get? 17 = some '.' ∧
      ∀ ch ∈ (EncodeTime t).data,
        ch.isDigit = true ∨ ch = ' ' ∨ ch = ':' ∨ ch = '.') ∧
    (∀ t u : DateTime, ValidTime t → ValidTime u →
      EncodeTime t = EncodeTime u → t = u) := by
  refine ⟨by decide, ?_, ?_⟩
  · rintro t ⟨hy, hmo, hd, hh, hmi, hs, hms⟩
    refine ⟨?_, ?_, ?_, ?_, ?_, ?_⟩
    · simp [EncodeTime, String.length, pad4, pad2, pad3]
    · simp [EncodeTime, pad4, pad2, pad3, List.get?]
    · simp [EncodeTime, pad4, pad2, pad3, List.get?]
    · simp [EncodeTime, pad4, pad2, pad3, List.get?]
    · simp [EncodeTime, pad4, pad2, pad3, List.get?]
    · intro ch hch
      simp only [EncodeTime, pad4, pad2, pad3, List.cons_append,
        List.nil_append, List.mem_cons, List.not_mem_nil, or_false] at hch
      rcases hch with rfl | rfl | rfl | rfl | rfl | rfl | rfl | rfl | rfl |
        rfl | rfl | rfl | rfl | rfl | rfl | rfl | rfl | rfl | rfl | rfl | rfl
      all_goals first
        | (left; exact digitChar_isDigit _ (by omega))
        | (right; simp)
  · rintro ⟨ty, tmo, td, th, tmi, ts, tms⟩ ⟨uy, umo, ud, uh, umi, us, ums⟩
      ⟨hy, hmo, hd, hh, hmi, hs, hms⟩ ⟨hy', hmo', hd', hh', hmi', hs', hms'⟩
      heq
    dsimp only at hy hmo hd hh hmi hs hms hy' hmo' hd' hh' hmi' hs' hms'
    have hdata := congrArg String.data heq
    simp only [EncodeTime, pad4, pad2, pad3, List.cons_append,
      List.nil_append, List.cons.injEq, and_true] at hdata
    obtain ⟨e1, e2, e3, e4, e5, e6, e7, e8, _, e9, e10, _, e11, e12, _,
      e13, e14, _, e15, e16, e17⟩ := hdata
    have g1 := digitChar_inj _ (by omega) _ (by omega) e1
    have g2 := digitChar_inj _ (by omega) _ (by omega) e2
    have g3 := digitChar_inj _ (by omega) _ (by omega) e3
    have g4 := digitChar_inj _ (by omega) _ (by omega) e4
    have g5 := digitChar_inj _ (by omega) _ (by omega) e5
    have g6 := digitChar_inj _ (by omega) _ (by omega) e6
    have g7 := digitChar_inj _ (by omega) _ (by omega) e7
    have g8 := digitChar_inj _ (by omega) _ (by omega) e8
    have g9 := digitChar_inj _ (by omega) _ (by omega) e9
    have g10 := digitChar_inj _ (by omega) _ (by omega) e10
    have g11 := digitChar_inj _ (by omega) _ (by omega) e11
    have g12 := digitChar_inj _ (by omega) _ (by omega) e12
    have g13 := digitChar_inj _ (by omega) _ (by omega) e13
    have g14 := digitChar_inj _ (by omega) _ (by omega) e14
    have g15 := digitChar_inj _ (by omega) _ (by omega) e15
    have g16 := digitChar_inj _ (by omega) _ (by omega) e16
    have g17 := digitChar_inj _ (by omega) _ (by omega) e17
    simp only [DateTime.mk.injEq]
    refine ⟨by omega, by omega, by omega, by omega, by omega, by omega,
      by omega⟩

/-- C6 witness: the concrete instant satisfies the layout properties. -/
theorem time_encoder_pattern_w :
    (EncodeTime ⟨2024, 3, 5, 7, 8, 9, 123⟩).length = 21 :=
  (time_encoder_pattern.2.1 ⟨2024, 3, 5, 7, 8, 9, 123⟩ (by decide)).1

theorem invNC_step (n : Nat) (s s' : Sys) (hinv : InvNC n s)
    (hstep : Step s s') : InvNC n s' := by
  obtain ⟨hlen, hsetup, h0, h1, hdone⟩ := hinv
  cases hstep with
  | fastHit i hpc hs =>
    have honce : s.once = true := by
      cases ho : s.once
      · exact absurd (h0 ho).1 hs
      · rfl
    refine ⟨by simpa using hlen, hsetup, ?_, h1, fun j hj => honce⟩
    intro hf
    rw [honce] at hf
    exact Bool.noConfusion hf
  | fastMiss i hpc hs =>
    refine ⟨by simpa using hlen, hsetup, h0, h1, ?_⟩
    intro j hj
    by_cases hij : i = j
    · subst hij
      rw [List.get?_set_eq_of_lt _ (lt_length_of_get?_eq_some hpc)] at hj
      exact EnsurePC.noConfusion (Option.some.inj hj)
    · rw [List.get?_set_ne _ _ hij] at hj
      exact hdone j hj
  | onceLatchHeld i hpc ho =>
    refine ⟨by simpa using hlen, hsetup, ?_, h1, fun j hj => ho⟩
    intro hf
    rw [ho] at hf
    exact Bool.noConfusion hf
  | onceRecheckSkip i v hpc ho hs =>
    rw [(h0 ho).1] at hs
    exact Option.noConfusion hs
  | onceDefaultInit i hpc ho hs =>
    refine ⟨by simpa using hlen, hsetup, ?_, ?_, fun j hj => rfl⟩
    · intro hf
      exact Bool.noConfusion hf
    · intro hf
      exact ⟨rfl, by rw [(h0 ho).2]⟩
  | setupInstall cfg hp =>
    rw [hsetup] at hp
    exact SetupCall.noConfusion hp

theorem invNC_reachable (n : Nat) (s : Sys)
    (h : Reachable (initSys n SetupCall.noCall) s) : InvNC n s := by
  have h' : Relation.ReflTransGen Step (initSys n SetupCall.noCall) s := h
  clear h
  induction h' with
  | refl =>
    refine ⟨by simp [initSys], rfl, fun _ => ⟨rfl, rfl⟩, ?_, ?_⟩
    · intro hf
      exact Bool.noConfusion hf
    · intro i hi
      simp only [initSys] at hi
      rw [get?_replicate_eq] at hi
      by_cases hlt : i < n
      · rw [if_pos hlt] at hi
        exact absurd (Option.some.inj hi) (by decide)
      · rw [if_neg hlt] at hi
        exact Option.noConfusion hi
  | tail hab hbc ih => exact invNC_step n _ _ ih hbc

/-- C1: starting from nil globals with `n` threads each making its first
leveled logging call (every such call runs `ensureInitialized` first), in
every interleaving the default-construction body runs at most once; every
thread whose call has returned sees the installed default logger (so the
call succeeds); and once all calls have returned the body ran exactly once
and the installed logger is the console-only, debug-threshold default. -/
theorem lazy_default_construction_once (n : Nat) (hn : 0 < n) :
    (∀ s : Sys, Reachable (initSys n SetupCall.noCall) s → s.count ≤ 1) ∧
    (∀ s : Sys, Reachable (initSys n SetupCall.noCall) s → ∀ i : Nat,
      s.threads.get? i = some EnsurePC.done →
      s.sugar = some defaultLoggerSpec) ∧
    (∀ s : Sys, Reachable (initSys n SetupCall.noCall) s →
      (∀ pc ∈ s.threads, pc = EnsurePC.done) →
      s.count = 1 ∧ s.sugar = some defaultLoggerSpec) ∧
    defaultLoggerSpec.level = Level.debug ∧
    defaultLoggerSpec.writer = Writer.stdout := by
  refine ⟨?_, ?_, ?_, rfl, rfl⟩
  · intro s hr
    obtain ⟨_, _, h0, h1, _⟩ := invNC_reachable n s hr
    cases ho : s.once
    · rw [(h0 ho).2]
      exact Nat.zero_le 1
    · exact Nat.le_of_eq (h1 ho).2
  · intro s hr i hi
    obtain ⟨_, _, _, h1, hdone⟩ := invNC_reachable n s hr
    exact (h1 (hdone i hi)).1
  · intro s hr hall
    obtain ⟨hlen, _, _, h1, hdone⟩ := invNC_reachable n s hr
    cases hts : s.threads with
    | nil =>
      rw [hts] at hlen
      simp at hlen
      omega
    | cons p ts =>
      have hp : p = EnsurePC.done := by
        refine hall p ?_
        rw [hts]
        exact List.mem_cons_self p ts
      have h0done : s.threads.get? 0 = some EnsurePC.done := by
        rw [hts, hp]
        rfl
      have honce := hdone 0 h0done
      exact ⟨(h1 honce).2, (h1 honce).1⟩

/-- C1 witness: a two-thread interleaving (miss, construct, fast-path hit)
ends with one construction and the default logger installed. -/
theorem lazy_default_construction_once_w :
    ({ threads := [EnsurePC.done, EnsurePC.done], setup := SetupCall.noCall,
        sugar := some defaultLoggerSpec, once := true, count := 1 } : Sys).count
        = 1 ∧
    ({ threads := [EnsurePC.done, EnsurePC.done], setup := SetupCall.noCall,
        sugar := some defaultLoggerSpec, once := true, count := 1 } : Sys).sugar
        = some defaultLoggerSpec := by
  have t1 : Step (initSys 2 SetupCall.noCall)
      { threads := [EnsurePC.slow, EnsurePC.start], setup := SetupCall.noCall,
        sugar := none, once := false, count := 0 } :=
    Step.fastMiss _ 0 rfl rfl
  have t2 : Step
      { threads := [EnsurePC.slow, EnsurePC.start], setup := SetupCall.noCall,
        sugar := none, once := false, count := 0 }
      { threads := [EnsurePC.done, EnsurePC.start], setup := SetupCall.noCall,
        sugar := some defaultLoggerSpec, once := true, count := 1 } :=
    Step.onceDefaultInit _ 0 rfl rfl rfl
  have t3 : Step
      { threads := [EnsurePC.done, EnsurePC.start], setup := SetupCall.noCall,
        sugar := some defaultLoggerSpec, once := true, count := 1 }
      { threads := [EnsurePC.done, EnsurePC.done], setup := SetupCall.noCall,
        sugar := some defaultLoggerSpec, once := true, count := 1 } :=
    Step.fastHit _ 1 rfl (fun h => Option.noConfusion h)
  have hreach : Reachable (initSys 2 SetupCall.noCall)
      { threads := [EnsurePC.done, EnsurePC.done], setup := SetupCall.noCall,
        sugar := some defaultLoggerSpec, once := true, count := 1 } :=
    Relation.ReflTransGen.head t1
      (Relation.ReflTransGen.head t2 (Relation.ReflTransGen.single t3))
  exact (lazy_default_construction_once 2 (by decide)).2.2.1 _ hreach
    (by decide)

theorem invS_step (cfg : Option Config) (s s' : Sys) (hinv : InvS cfg s)
    (hstep : Step s s') : InvS cfg s' := by
  cases hstep with
  | fastHit i hpc hs => exact hinv
  | fastMiss i hpc hs => exact hinv
  | onceLatchHeld i hpc ho => exact hinv
  | onceRecheckSkip i v hpc ho hs => exact hinv
  | onceDefaultInit i hpc ho hs =>
    rcases hinv with hp | ⟨_, hsg⟩
    · exact Or.inl hp
    · rw [hsg] at hs
      exact Option.noConfusion hs
  | setupInstall cfg' hp =>
    rcases hinv with hpend | ⟨hf, _⟩
    · rw [hp] at hpend
      injection hpend with hcc
      subst hcc
      exact Or.inr ⟨rfl, rfl⟩
    · rw [hf] at hp
      exact SetupCall.noConfusion hp

theorem invS_reachable (n : Nat) (cfg : Option Config) (s : Sys)
    (h : Reachable (initSys n (SetupCall.pending cfg)) s) : InvS cfg s := by
  have h' : Relation.ReflTransGen Step (initSys n (SetupCall.pending cfg)) s :=
    h
  clear h
  induction h' with
  | refl => exact Or.inl rfl
  | tail hab hbc ih => exact invS_step cfg _ _ ih hbc

/-- C2: once an explicit `Setup cfg` call has installed its logger, every
reachable later state still holds exactly that logger — the lazy default
path never overwrites it, because the one-time body re-checks the handle
inside its critical section (and any step that leaves the `Setup` state
alone preserves a non-nil handle and never runs the construction body). -/
theorem setup_wins_over_lazy_default (n : Nat) (cfg : Option Config) :
    (∀ s : Sys, Reachable (initSys n (SetupCall.pending cfg)) s →
      s.setup = SetupCall.finished cfg → s.sugar = some (Setup cfg).1) ∧
    (∀ s s' : Sys, ∀ v : LoggerSpec, Step s s' → s.sugar = some v →
      s.setup = s'.setup → s'.sugar = some v ∧ s'.count = s.count) := by
  constructor
  · intro s hr hfin
    rcases invS_reachable n cfg s hr with hp | ⟨_, hsg⟩
    · rw [hfin] at hp
      exact SetupCall.noConfusion hp
    · exact hsg
  · intro s s' v hstep hsug hsetup
    cases hstep with
    | fastHit i hpc hs => exact ⟨hsug, rfl⟩
    | fastMiss i hpc hs => exact ⟨hsug, rfl⟩
    | onceLatchHeld i hpc ho => exact ⟨hsug, rfl⟩
    | onceRecheckSkip i w hpc ho hs => exact ⟨hsug, rfl⟩
    | onceDefaultInit i hpc ho hs =>
      rw [hsug] at hs
      exact Option.noConfusion hs
    | setupInstall cfg' hp =>
      rw [hp] at hsetup
      exact SetupCall.noConfusion hsetup

/-- C2 witness: a one-thread interleaving where the lazy path loses the
race to the fast-path check, `Setup` installs, and the one-time body's
re-check then skips construction, leaving the `Setup` logger in place. -/
theorem setup_wins_over_lazy_default_w :
    ({ threads := [EnsurePC.done], setup := SetupCall.finished none,
        sugar := some (Setup none).1, once := true, count := 0 } : Sys).sugar
      = some (Setup (none : Option Config)).1 := by
  have t1 : Step (initSys 1 (SetupCall.pending (none : Option Config)))
      { threads := [EnsurePC.slow], setup := SetupCall.pending none,
        sugar := none, once := false, count := 0 } :=
    Step.fastMiss _ 0 rfl rfl
  have t2 : Step
      { threads := [EnsurePC.slow], setup := SetupCall.pending none,
        sugar := none, once := false, count := 0 }
      { threads := [EnsurePC.slow], setup := SetupCall.finished none,
        sugar := some (Setup none).1, once := false, count := 0 } :=
    Step.setupInstall _ none rfl
  have t3 : Step
      { threads := [EnsurePC.slow], setup := SetupCall.finished none,
        sugar := some (Setup none).1, once := false, count := 0 }
      { threads := [EnsurePC.done], setup := SetupCall.finished none,
        sugar := some (Setup none).1, once := true, count := 0 } :=
    Step.onceRecheckSkip _ 0 (Setup none).1 rfl rfl rfl
  have hreach : Reachable (initSys 1 (SetupCall.pending (none : Option Config)))
      { threads := [EnsurePC.done], setup := SetupCall.finished none,
        sugar := some (Setup none).1, once := true, count := 0 } :=
    Relation.ReflTransGen.head t1
      (Relation.ReflTransGen.head t2 (Relation.ReflTransGen.single t3))
  exact (setup_wins_over_lazy_default 1 none).1 _ hreach rfl

end L
